import Mathlib

/-!
Shallow embedding of the chapter10 collision / physics / entity code of
`game-programming-rust-sample`.  Real numbers (`f32` in the source) are
modelled as `ℚ`; machine-float rounding is not modelled.  The math module
(`Vector3`, `Quaternion`, `Matrix4`, `basic::near_zero`) is shared by the
chapters of the repository; the definitions below follow
`src/chapter06/src/math/*.rs` / `src/chapter03/src/math/basic.rs`, which is
the copy of the math module present in the sources, and the names used by
the chapter10 call sites.
-/

namespace Ch10

/-- `math::vector3::Vector3` (fields x, y, z). -/
structure Vector3 where
  x : ℚ
  y : ℚ
  z : ℚ
deriving DecidableEq

namespace Vector3

def ZERO : Vector3 := ⟨0, 0, 0⟩

def UNIT_X : Vector3 := ⟨1, 0, 0⟩

def UNIT_Y : Vector3 := ⟨0, 1, 0⟩

def UNIT_Z : Vector3 := ⟨0, 0, 1⟩

def NEGATIVE_UNIT_X : Vector3 := ⟨-1, 0, 0⟩

def NEGATIVE_UNIT_Y : Vector3 := ⟨0, -1, 0⟩

def NEGATIVE_UNIT_Z : Vector3 := ⟨0, 0, -1⟩

/-- `impl Add for Vector3`. -/
def add (a b : Vector3) : Vector3 := ⟨a.x + b.x, a.y + b.y, a.z + b.z⟩

/-- `impl Sub for Vector3`. -/
def sub (a b : Vector3) : Vector3 := ⟨a.x - b.x, a.y - b.y, a.z - b.z⟩

/-- `impl Mul<f32> for Vector3` (scalar multiplication). -/
def mul_scalar (a : Vector3) (s : ℚ) : Vector3 := ⟨a.x * s, a.y * s, a.z * s⟩

/-- `Vector3::dot`. -/
def dot (a b : Vector3) : ℚ := a.x * b.x + a.y * b.y + a.z * b.z

/-- `Vector3::cross`. -/
def cross (a b : Vector3) : Vector3 :=
  ⟨a.y * b.z - a.z * b.y, a.z * b.x - a.x * b.z, a.x * b.y - a.y * b.x⟩

/-- Squared length; named `length_sq` at the chapter10 call sites
(`length_sqrt` in the chapter06 copy, same body `x*x + y*y + z*z`). -/
def length_sq (a : Vector3) : ℚ := a.x * a.x + a.y * a.y + a.z * a.z

instance : Add Vector3 := ⟨add⟩

instance : Sub Vector3 := ⟨sub⟩

end Vector3

/-- `f32::abs`, written out so that it evaluates by kernel reduction. -/
def fabs (v : ℚ) : ℚ := if v < 0 then -v else v

/-- `math::basic::near_zero`: `value.abs() <= epsilon`. -/
def near_zero (value epsilon : ℚ) : Bool := decide (fabs value ≤ epsilon)

/-- `math::quaternion::Quaternion` (x, y, z, w). -/
structure Quaternion where
  x : ℚ
  y : ℚ
  z : ℚ
  w : ℚ
deriving DecidableEq

def Quaternion.IDENTITY : Quaternion := ⟨0, 0, 0, 1⟩

/-- `math::matrix4::Matrix4`: a row-major 4x4 matrix (`mat[row][column]`),
with the 16 entries spelled out. -/
structure Matrix4 where
  m00 : ℚ
  m01 : ℚ
  m02 : ℚ
  m03 : ℚ
  m10 : ℚ
  m11 : ℚ
  m12 : ℚ
  m13 : ℚ
  m20 : ℚ
  m21 : ℚ
  m22 : ℚ
  m23 : ℚ
  m30 : ℚ
  m31 : ℚ
  m32 : ℚ
  m33 : ℚ
deriving DecidableEq

namespace Matrix4

def IDENTITY : Matrix4 :=
  ⟨1, 0, 0, 0,
   0, 1, 0, 0,
   0, 0, 1, 0,
   0, 0, 0, 1⟩

/-- `Matrix4::create_scale_xyz` applied to a uniform scale
(`Matrix4::create_scale`). -/
def create_scale (scale : ℚ) : Matrix4 :=
  ⟨scale, 0, 0, 0,
   0, scale, 0, 0,
   0, 0, scale, 0,
   0, 0, 0, 1⟩

/-- `Matrix4::create_translation`. -/
def create_translation (trans : Vector3) : Matrix4 :=
  ⟨1, 0, 0, 0,
   0, 1, 0, 0,
   0, 0, 1, 0,
   trans.x, trans.y, trans.z, 1⟩

/-- `Matrix4::create_from_quaternion`. -/
def create_from_quaternion (q : Quaternion) : Matrix4 :=
  ⟨1 - 2*q.y*q.y - 2*q.z*q.z, 2*q.x*q.y + 2*q.w*q.z, 2*q.x*q.z - 2*q.w*q.y, 0,
   2*q.x*q.y - 2*q.w*q.z, 1 - 2*q.x*q.x - 2*q.z*q.z, 2*q.y*q.z + 2*q.w*q.x, 0,
   2*q.x*q.z + 2*q.w*q.y, 2*q.y*q.z - 2*q.w*q.x, 1 - 2*q.x*q.x - 2*q.y*q.y, 0,
   0, 0, 0, 1⟩

/-- `impl Mul for Matrix4` (row-by-column products, the 4-term sums of the
source loop written out per entry). -/
def mul (a b : Matrix4) : Matrix4 :=
  ⟨a.m00*b.m00 + a.m01*b.m10 + a.m02*b.m20 + a.m03*b.m30,
   a.m00*b.m01 + a.m01*b.m11 + a.m02*b.m21 + a.m03*b.m31,
   a.m00*b.m02 + a.m01*b.m12 + a.m02*b.m22 + a.m03*b.m32,
   a.m00*b.m03 + a.m01*b.m13 + a.m02*b.m23 + a.m03*b.m33,
   a.m10*b.m00 + a.m11*b.m10 + a.m12*b.m20 + a.m13*b.m30,
   a.m10*b.m01 + a.m11*b.m11 + a.m12*b.m21 + a.m13*b.m31,
   a.m10*b.m02 + a.m11*b.m12 + a.m12*b.m22 + a.m13*b.m32,
   a.m10*b.m03 + a.m11*b.m13 + a.m12*b.m23 + a.m13*b.m33,
   a.m20*b.m00 + a.m21*b.m10 + a.m22*b.m20 + a.m23*b.m30,
   a.m20*b.m01 + a.m21*b.m11 + a.m22*b.m21 + a.m23*b.m31,
   a.m20*b.m02 + a.m21*b.m12 + a.m22*b.m22 + a.m23*b.m32,
   a.m20*b.m03 + a.m21*b.m13 + a.m22*b.m23 + a.m23*b.m33,
   a.m30*b.m00 + a.m31*b.m10 + a.m32*b.m20 + a.m33*b.m30,
   a.m30*b.m01 + a.m31*b.m11 + a.m32*b.m21 + a.m33*b.m31,
   a.m30*b.m02 + a.m31*b.m12 + a.m32*b.m22 + a.m33*b.m32,
   a.m30*b.m03 + a.m31*b.m13 + a.m32*b.m23 + a.m33*b.m33⟩

end Matrix4

/-- `collision::aabb::AABB` (min/max corners). -/
structure AABB where
  min : Vector3
  max : Vector3
deriving DecidableEq

namespace AABB

/-- `AABB::contains`, translated literally from the source.  Note that the
sixth disjunct of the source reads `point.x > self.max.z` (it compares the
x coordinate of the point with the z coordinate of `max`). -/
def contains (b : AABB) (point : Vector3) : Bool :=
  let outside :=
    decide (point.x < b.min.x) || decide (point.y < b.min.y) ||
    decide (point.z < b.min.z) || decide (point.x > b.max.x) ||
    decide (point.y > b.max.y) || decide (point.x > b.max.z)
  !outside

/-- `AABB::intersect` (3-axis separating test). -/
def intersect (a other : AABB) : Bool :=
  let no :=
    decide (a.max.x < other.min.x) || decide (a.max.y < other.min.y) ||
    decide (a.max.z < other.min.z) || decide (other.max.x < a.min.x) ||
    decide (other.max.y < a.min.y) || decide (other.max.z < a.min.z)
  !no

end AABB

/-- `collision::line_segment::LineSegment`.  The second field is named
`end` in the source, which is a reserved word here. -/
structure LineSegment where
  start : Vector3
  end_ : Vector3
deriving DecidableEq

namespace LineSegment

/-- `LineSegment::point_on_segment`: `start + (end - start) * t`. -/
def point_on_segment (l : LineSegment) (t : ℚ) : Vector3 :=
  l.start + (l.end_ - l.start).mul_scalar t

/-- `LineSegment::min_dist_sq_line`, translated literally (including the
`u`/`v` definitions of the source, which subtract across the two
segments: `u = self.end - other.start`, `v = other.end - self.start`).
The state after the first `if`/`else` block is the tuple
`(sn, sd, tn, td)`; `sd` keeps the value `discriminant` except in the
near-parallel branch. -/
def min_dist_sq_line (s1 s2 : LineSegment) : ℚ :=
  let u := s1.end_ - s2.start
  let v := s2.end_ - s1.start
  let w := s1.start - s2.start
  let a := Vector3.dot u u
  let b := Vector3.dot u v
  let c := Vector3.dot v v
  let d := Vector3.dot u w
  let e := Vector3.dot v w
  let discriminant := a * c - b * b
  let q1 : ℚ × ℚ × ℚ × ℚ :=
    if near_zero discriminant (1/1000) then (0, 1, e, c)
    else
      let sn := b * e - c * d
      let tn := a * e - b * d
      if sn < 0 then (0, discriminant, e, c)
      else if sn > discriminant then (discriminant, discriminant, e + b, c)
      else (sn, discriminant, tn, discriminant)
  let sn := q1.1
  let sd := q1.2.1
  let tn := q1.2.2.1
  let td := q1.2.2.2
  let q2 : ℚ × ℚ × ℚ × ℚ :=
    if tn < 0 then
      if -d < 0 then (0, sd, 0, td)
      else if -d > a then (sd, sd, 0, td)
      else (-d, a, 0, td)
    else if tn > td then
      if -d + b < 0 then (0, sd, td, td)
      else if -d + b > a then (sd, sd, td, td)
      else (-d + b, a, td, td)
    else (sn, sd, tn, td)
  let sn2 := q2.1
  let sd2 := q2.2.1
  let tn2 := q2.2.2.1
  let td2 := q2.2.2.2
  let sc := if near_zero sn2 (1/1000) then 0 else sn2 / sd2
  let tc := if near_zero tn2 (1/1000) then 0 else tn2 / td2
  let dp := w + u.mul_scalar sc - v.mul_scalar tc
  dp.length_sq

/-- `LineSegment::test_side_plane`.  The source pushes `(t, norm)` into an
output vector and reports success; here the pushed candidate is returned
as an `Option`. -/
def test_side_plane (start end_ negd : ℚ) (norm : Vector3) : Option (ℚ × Vector3) :=
  let denom := end_ - start
  if near_zero denom (1/1000) then none
  else
    let numer := -start + negd
    let t := numer / denom
    if decide (t ≥ 0) && decide (t ≤ 1) then some (t, norm) else none

/-- Comparison used for `t_values.sort_by(partial_cmp on .0)`. -/
def t_le (a b : ℚ × Vector3) : Prop := a.1 ≤ b.1

instance : DecidableRel t_le := fun a b => inferInstanceAs (Decidable (a.1 ≤ b.1))

instance : IsTotal (ℚ × Vector3) t_le := ⟨fun a b => le_total a.1 b.1⟩

instance : IsTrans (ℚ × Vector3) t_le := ⟨fun _ _ _ h1 h2 => le_trans h1 h2⟩

/-- `LineSegment::intersect_aabb`: collect the six side-plane candidates (x
min/max, y min/max, z min/max, in source push order), sort ascending by
`t`, and return the first candidate whose point passes `AABB::contains`. -/
def intersect_aabb (l : LineSegment) (aabb : AABB) : Option (ℚ × Vector3) :=
  let t_values :=
    [ test_side_plane l.start.x l.end_.x aabb.min.x Vector3.NEGATIVE_UNIT_X,
      test_side_plane l.start.x l.end_.x aabb.max.x Vector3.UNIT_X,
      test_side_plane l.start.y l.end_.y aabb.min.y Vector3.NEGATIVE_UNIT_Y,
      test_side_plane l.start.y l.end_.y aabb.max.y Vector3.UNIT_Y,
      test_side_plane l.start.z l.end_.z aabb.min.z Vector3.NEGATIVE_UNIT_Z,
      test_side_plane l.start.z l.end_.z aabb.max.z Vector3.UNIT_Z ].filterMap id
  let sorted := List.insertionSort t_le t_values
  sorted.find? (fun tn => aabb.contains (l.point_on_segment tn.1))

end LineSegment

/-- `collision::capsule::Capsule`. -/
structure Capsule where
  segment : LineSegment
  radius : ℚ
deriving DecidableEq

/-- `Capsule::intersect`: segment-segment distance against summed radii. -/
def Capsule.intersect (c other : Capsule) : Bool :=
  let line_dist_sq := LineSegment.min_dist_sq_line c.segment other.segment
  let sum_radius := c.radius + other.radius
  decide (line_dist_sq ≤ sum_radius * sum_radius)

/-- `components::box_component::BoxComponent`, restricted to the fields the
physics world reads: its id, the id of the owning actor (`owner_id`), and
the world-space box.  The `Rc<RefCell<dyn Actor>>` owner is represented by
the owner id. -/
structure BoxComponent where
  id : ℕ
  owner_id : ℕ
  world_box : AABB
deriving DecidableEq

/-- `system::phys_world::CollisionInfo` (point, normal, component hit,
owning actor as its id). -/
structure CollisionInfo where
  point : Vector3
  normal : Vector3
  box_component : BoxComponent
  actor_id : ℕ
deriving DecidableEq

/-- The `CollisionInfo` the `segment_cast` loop builds for a hit at
parameter `t` with normal `normal` on box `b`. -/
def mk_collision_info (line : LineSegment) (b : BoxComponent) (t : ℚ)
    (normal : Vector3) : CollisionInfo :=
  ⟨line.point_on_segment t, normal, b, b.owner_id⟩

namespace PhysWorld

/-- The loop of `PhysWorld::segment_cast`: scan the registry in order,
keeping the accumulator `(closest_t, result)`.  `closest_t` starts at
`f32::INFINITY` with `result = None`; this initial state is the `none`
accumulator (every finite `t` satisfies `t < INFINITY`). -/
def segment_cast_aux (line : LineSegment) :
    List BoxComponent → Option (ℚ × CollisionInfo) → Option (ℚ × CollisionInfo)
  | [], acc => acc
  | b :: rest, acc =>
    match line.intersect_aabb b.world_box with
    | none => segment_cast_aux line rest acc
    | some (t, normal) =>
      let better := match acc with
        | none => true
        | some (closest_t, _) => decide (t < closest_t)
      if better then
        segment_cast_aux line rest (some (t, mk_collision_info line b t normal))
      else
        segment_cast_aux line rest acc

/-- `PhysWorld::segment_cast`: the registry `boxes` is scanned in order and
the collision of the strictly closest `t` so far is kept. -/
def segment_cast (line : LineSegment) (boxes : List BoxComponent) :
    Option CollisionInfo :=
  (segment_cast_aux line boxes none).map Prod.snd

/-- The hits of the scan, in registry order: each box for which
`intersect_aabb` reports a collision, paired with its `(t, normal)`. -/
def hits (line : LineSegment) (boxes : List BoxComponent) :
    List (BoxComponent × ℚ × Vector3) :=
  boxes.filterMap (fun b => (line.intersect_aabb b.world_box).map (fun tn => (b, tn)))

/-- The `segment_cast` loop viewed on the hit list: the same
keep-the-strictly-closest accumulator, fed with the `(box, t, normal)`
hits instead of the raw registry. -/
def fold_hits (line : LineSegment) :
    List (BoxComponent × ℚ × Vector3) → Option (ℚ × CollisionInfo) → Option (ℚ × CollisionInfo)
  | [], acc => acc
  | (b, t, normal) :: rest, acc =>
    let better := match acc with
      | none => true
      | some (closest_t, _) => decide (t < closest_t)
    if better then fold_hits line rest (some (t, mk_collision_info line b t normal))
    else fold_hits line rest acc

/-- `PhysWorld::test_pairwise` (the naive double loop over `i < j`),
collecting the `(owner i, owner j)` arguments of the callback invocations
in invocation order. -/
def test_pairwise : List BoxComponent → List (ℕ × ℕ)
  | [] => []
  | a :: rest =>
    ((rest.filter (fun b => AABB.intersect a.world_box b.world_box)).map
      (fun b => (a.owner_id, b.owner_id))) ++ test_pairwise rest

/-- The inner loop of `test_sweep_and_prune` for box `a`: scan forward,
breaking as soon as a candidate's `min.x` exceeds `a`'s `max.x`. -/
def sweep_scan (a : BoxComponent) : List BoxComponent → List (ℕ × ℕ)
  | [] => []
  | b :: rest =>
    if decide (b.world_box.min.x > a.world_box.max.x) then []
    else
      (if AABB.intersect a.world_box b.world_box then [(a.owner_id, b.owner_id)] else [])
        ++ sweep_scan a rest

/-- The outer loop of `test_sweep_and_prune` over the sorted registry. -/
def sweep_aux : List BoxComponent → List (ℕ × ℕ)
  | [] => []
  | a :: rest => sweep_scan a rest ++ sweep_aux rest

/-- The comparison `sort_by(min.x partial_cmp)` sorts by. -/
def box_le (a b : BoxComponent) : Prop :=
  a.world_box.min.x ≤ b.world_box.min.x

instance : DecidableRel box_le :=
  fun a b => inferInstanceAs (Decidable (a.world_box.min.x ≤ b.world_box.min.x))

instance : IsTotal BoxComponent box_le := ⟨fun _ _ => le_total _ _⟩

instance : IsTrans BoxComponent box_le := ⟨fun _ _ _ h1 h2 => le_trans h1 h2⟩

/-- `PhysWorld::test_sweep_and_prune` takes `&mut self`: it first sorts
`self.boxes` in place by `min.x` and then runs the pruned double loop on
the sorted registry.  The result is the list of callback argument pairs
together with the registry as the call leaves it. -/
def test_sweep_and_prune (boxes : List BoxComponent) :
    List (ℕ × ℕ) × List BoxComponent :=
  let sorted := List.insertionSort box_le boxes
  (sweep_aux sorted, sorted)

end PhysWorld

/-- `actors::actor`: the state of an actor relevant to
`compute_world_transform`.  The components attached to the actor are
represented by how often each has received `on_update_world_transform`
(the actor's component list, as a list of notification counters). -/
structure ActorTransform where
  position : Vector3
  scale : ℚ
  rotation : Quaternion
  world_transform : Matrix4
  recompute_world_transform : Bool
  components : List ℕ
deriving DecidableEq

/-- `set_world_transform` from `impl_getters_setters!`: stores the matrix
and sets `recompute_world_transform = true`. -/
def set_world_transform (s : ActorTransform) (m : Matrix4) : ActorTransform :=
  { s with world_transform := m, recompute_world_transform := true }

/-- `Actor::compute_world_transform`: early-out unless the dirty flag is
set; clear the flag; build scale * rotation * translation; store it through
`set_world_transform`; then notify every component
(`on_update_world_transform`, counted per component). -/
def compute_world_transform (s : ActorTransform) : ActorTransform :=
  if s.recompute_world_transform = false then s
  else
    let s1 : ActorTransform := { s with recompute_world_transform := false }
    let wt := ((Matrix4.create_scale s1.scale).mul
        (Matrix4.create_from_quaternion s1.rotation)).mul
      (Matrix4.create_translation s1.position)
    let s2 := set_world_transform s1 wt
    { s2 with components := s2.components.map (fun n => n + 1) }

/-- `actors::actor::State`. -/
inductive ActorLife where
  | Active
  | Paused
  | Dead
deriving DecidableEq

/-- `components::component::State`. -/
inductive ComponentLife where
  | Active
  | Paused
  | Dead
deriving DecidableEq

/-- An actor as the entity manager sees it: id, lifecycle state, and the
ids of its attached components (the `Rc`-shared component objects
themselves live in a `CompStore`). -/
structure MActor where
  id : ℕ
  state : ActorLife
  components : List ℕ
deriving DecidableEq

/-- The states of the shared component objects, indexed by component id. -/
def CompStore : Type := ℕ → ComponentLife

/-- `actors::actor::remove_actor`: set the actor's state to `Dead`, mark
each of its components `Dead` in the store, then clear the component
list.  Returns the actor object as the cascade leaves it plus the updated
store. -/
def remove_actor (a : MActor) (comps : CompStore) : MActor × CompStore :=
  let a1 : MActor := { a with state := ActorLife.Dead }
  let comps1 : CompStore := fun c => if c ∈ a1.components then ComponentLife.Dead else comps c
  ({ a1 with components := [] }, comps1)

/-- `system::entity_manager::EntityManager` (the fields the lifecycle
claims use). -/
structure EntityManager where
  actors : List MActor
  pending_actors : List MActor
  updating_actors : Bool
deriving DecidableEq

/-- `EntityManager::add_actor`: while `updating_actors` the actor goes to
the pending list, otherwise straight to the active list. -/
def EntityManager.add_actor (em : EntityManager) (a : MActor) : EntityManager :=
  if em.updating_actors then { em with pending_actors := em.pending_actors ++ [a] }
  else { em with actors := em.actors ++ [a] }

/-- The `retain` pass of `flush_actors`: keep non-`Dead` actors; for each
`Dead` actor run `remove_actor` and drop it.  Returns the kept actors, the
dropped actors as `(before, after remove_actor)` pairs, and the final
component store. -/
def flush_retain : List MActor → CompStore → List MActor × List (MActor × MActor) × CompStore
  | [], comps => ([], [], comps)
  | a :: rest, comps =>
    if a.state ≠ ActorLife.Dead then
      let r := flush_retain rest comps
      (a :: r.1, r.2.1, r.2.2)
    else
      let rc := remove_actor a comps
      let r := flush_retain rest rc.2
      (r.1, (a, rc.1) :: r.2.1, r.2.2)

/-- `EntityManager::flush_actors`: append every pending actor to the
active list, clear the pending list, then retain non-`Dead` actors,
cascading `remove_actor` over the dropped ones. -/
def EntityManager.flush_actors (em : EntityManager) (comps : CompStore) :
    EntityManager × List (MActor × MActor) × CompStore :=
  let merged := em.actors ++ em.pending_actors
  let r := flush_retain merged comps
  ({ em with actors := r.1, pending_actors := [] }, r.2.1, r.2.2)

/-- The actor-maintenance part of `Game::update_game` around one spawn:
set `updating_actors`, spawn `a` during the update loop (`add_actor` while
updating), clear `updating_actors`, then — as `game.rs` does — call
`add_actor` once per actor of the (cloned) pending list and finally
`flush_actors`. -/
def update_game_tick (em : EntityManager) (a : MActor) (comps : CompStore) :
    EntityManager × List (MActor × MActor) × CompStore :=
  let em1 : EntityManager := { em with updating_actors := true }
  let em2 := em1.add_actor a
  let em3 : EntityManager := { em2 with updating_actors := false }
  let em4 := em3.pending_actors.foldl (fun e p => e.add_actor p) em3
  em4.flush_actors comps

/-- The state of the entity manager right after a spawn while
`updating_actors` is set (used to state where the spawned actor lives
during the update iteration). -/
def spawn_during_update (em : EntityManager) (a : MActor) : EntityManager :=
  ({ em with updating_actors := true } : EntityManager).add_actor a

end Ch10

namespace Ch10

/-- C2: refuted as stated.  `AABB::contains` is claimed to decide
`min ≤ point ≤ max` on all three axes; the claim's own positive example
does hold (first conjunct), but for the box `min=(0,0,0), max=(2,2,1)`
the point `(1,1,2)`, which lies beyond `max` on the z axis alone, is
reported as contained, because the source compares `point.x` (not
`point.z`) against `max.z` in its last disjunct. -/
theorem c2_contains_bug :
    AABB.contains ⟨⟨0, 0, 0⟩, ⟨2, 2, 2⟩⟩ ⟨4/5, 4/5, 4/5⟩ = true ∧
    AABB.contains ⟨⟨0, 0, 0⟩, ⟨2, 2, 1⟩⟩ ⟨1, 1, 2⟩ = true ∧
    (⟨1, 1, 2⟩ : Vector3).z > (⟨⟨0, 0, 0⟩, ⟨2, 2, 1⟩⟩ : AABB).max.z := by
  refine ⟨?_, ?_, ?_⟩
  · with_unfolding_all rfl
  · with_unfolding_all rfl
  · with_unfolding_all decide

/-- C6: refuted as stated.  The claim's positive example holds (first
conjunct: the segment `(0,0,0)-(0,2,0)` against the unit-2 box hits at
`t = 1/2` with normal `(0,1,0)`).  But `intersect_aabb` accepts a
candidate through the buggy `AABB::contains`: for the segment
`(-1,1/2,2)-(1,1/2,2)` (which passes above the unit box, never touching
it) and the box `min=(0,0,0), max=(1,1,1)`, it returns the `t = 1/2`
crossing of the `x = min.x` side plane although the point of that
candidate lies beyond `max.z`, i.e. not within the box. -/
theorem c6_intersect_aabb_bug :
    LineSegment.intersect_aabb ⟨⟨0, 0, 0⟩, ⟨0, 2, 0⟩⟩ ⟨⟨-1, -1, -1⟩, ⟨1, 1, 1⟩⟩ =
      some (1/2, ⟨0, 1, 0⟩) ∧
    LineSegment.intersect_aabb ⟨⟨-1, 1/2, 2⟩, ⟨1, 1/2, 2⟩⟩ ⟨⟨0, 0, 0⟩, ⟨1, 1, 1⟩⟩ =
      some (1/2, ⟨-1, 0, 0⟩) ∧
    (LineSegment.point_on_segment ⟨⟨-1, 1/2, 2⟩, ⟨1, 1/2, 2⟩⟩ (1/2)).z >
      (⟨⟨0, 0, 0⟩, ⟨1, 1, 1⟩⟩ : AABB).max.z := by
  refine ⟨?_, ?_, ?_⟩
  · with_unfolding_all rfl
  · with_unfolding_all rfl
  · with_unfolding_all decide

/-- C7: refuted as stated.  For `S1 = (0,0,0)-(1,0,0)` and
`S2 = (1/2,1,0)-(1/2,2,0)` the source's `min_dist_sq_line` returns `5/4`,
yet the points `S1(1/2)` and `S2(0)` are at squared distance `1 < 5/4`,
so the returned value is not the minimum over the two segments (the
source builds `u`/`v` across the two segments instead of from each
segment's own endpoints).  Consequently `Capsule::intersect` is wrong as
well: with radii `21/40` each, `(r1+r2)^2 = 441/400 ≥ 1`, so the capsules
do overlap, but `intersect` reports `false`. -/
theorem c7_min_dist_sq_line_bug :
    LineSegment.min_dist_sq_line ⟨⟨0, 0, 0⟩, ⟨1, 0, 0⟩⟩ ⟨⟨1/2, 1, 0⟩, ⟨1/2, 2, 0⟩⟩ = 5/4 ∧
    (LineSegment.point_on_segment ⟨⟨0, 0, 0⟩, ⟨1, 0, 0⟩⟩ (1/2) -
      LineSegment.point_on_segment ⟨⟨1/2, 1, 0⟩, ⟨1/2, 2, 0⟩⟩ 0).length_sq = 1 ∧
    Capsule.intersect ⟨⟨⟨0, 0, 0⟩, ⟨1, 0, 0⟩⟩, 21/40⟩ ⟨⟨⟨1/2, 1, 0⟩, ⟨1/2, 2, 0⟩⟩, 21/40⟩ =
      false ∧
    ((1 : ℚ) ≤ (21/40 + 21/40) * (21/40 + 21/40)) ∧ ((1 : ℚ) < 5/4) := by
  refine ⟨?_, ?_, ?_, ?_, ?_⟩
  · with_unfolding_all rfl
  · with_unfolding_all rfl
  · with_unfolding_all rfl
  · norm_num
  · norm_num

/-- C3: refuted as stated.  For the concrete actor below (dirty flag set,
one attached component with notification count 0) the first
`compute_world_transform` notifies the component (count 1) but leaves the
dirty flag `true` again — because the recomputation stores the matrix
through `set_world_transform`, which re-sets the flag — so the second
call recomputes and notifies the component a second time (count 2). -/
theorem c3_counterexample :
    (compute_world_transform
      ⟨Vector3.ZERO, 1, Quaternion.IDENTITY, Matrix4.IDENTITY, true, [0]⟩).components = [1] ∧
    (compute_world_transform
      ⟨Vector3.ZERO, 1, Quaternion.IDENTITY, Matrix4.IDENTITY, true, [0]⟩).recompute_world_transform = true ∧
    (compute_world_transform (compute_world_transform
      ⟨Vector3.ZERO, 1, Quaternion.IDENTITY, Matrix4.IDENTITY, true, [0]⟩)).components = [2] := by
  refine ⟨?_, ?_, ?_⟩
  · with_unfolding_all rfl
  · with_unfolding_all rfl
  · with_unfolding_all rfl

/-- C3 (amended): calling `compute_world_transform` twice with no
intervening change to position, scale, or rotation produces the same
world matrix both times; however the dirty flag is set back to `true` by
`set_world_transform` during the recomputation, so the second call
recomputes and notifies every attached component once more. -/
theorem c3_amended (s : ActorTransform) (h : s.recompute_world_transform = true) :
    (compute_world_transform (compute_world_transform s)).world_transform =
      (compute_world_transform s).world_transform ∧
    (compute_world_transform s).recompute_world_transform = true ∧
    (compute_world_transform (compute_world_transform s)).components =
      (compute_world_transform s).components.map (fun n => n + 1) := by
  simp [compute_world_transform, set_world_transform, h]

/-- Witness for `c3_amended` at a concrete actor. -/
theorem c3_amended_witness :
    (⟨Vector3.ZERO, 1, Quaternion.IDENTITY, Matrix4.IDENTITY, true, [0]⟩ :
        ActorTransform).recompute_world_transform = true ∧
    ((compute_world_transform (compute_world_transform
        ⟨Vector3.ZERO, 1, Quaternion.IDENTITY, Matrix4.IDENTITY, true, [0]⟩)).world_transform =
      (compute_world_transform
        ⟨Vector3.ZERO, 1, Quaternion.IDENTITY, Matrix4.IDENTITY, true, [0]⟩).world_transform ∧
    (compute_world_transform
        ⟨Vector3.ZERO, 1, Quaternion.IDENTITY, Matrix4.IDENTITY, true, [0]⟩).recompute_world_transform = true ∧
    (compute_world_transform (compute_world_transform
        ⟨Vector3.ZERO, 1, Quaternion.IDENTITY, Matrix4.IDENTITY, true, [0]⟩)).components =
      (compute_world_transform
        ⟨Vector3.ZERO, 1, Quaternion.IDENTITY, Matrix4.IDENTITY, true, [0]⟩).components.map
        (fun n => n + 1)) :=
  ⟨rfl, c3_amended ⟨Vector3.ZERO, 1, Quaternion.IDENTITY, Matrix4.IDENTITY, true, [0]⟩ rfl⟩

/-- C4: refuted as stated (the deferred-spawn half holds, the
exactly-once half does not).  Spawning actor 7 into an empty manager
while `updating_actors` is set puts it on the pending list only (first
two conjuncts, as the claim says).  But the tick's merge adds it to the
active list twice: `Game::update_game` pushes each pending actor via
`add_actor` after clearing `updating_actors`, and `flush_actors` then
appends the still-uncleared pending list again. -/
theorem c4_double_add_bug :
    (spawn_during_update ⟨[], [], false⟩ ⟨7, ActorLife.Active, []⟩).pending_actors =
      [⟨7, ActorLife.Active, []⟩] ∧
    (spawn_during_update ⟨[], [], false⟩ ⟨7, ActorLife.Active, []⟩).actors = [] ∧
    (update_game_tick ⟨[], [], false⟩ ⟨7, ActorLife.Active, []⟩
        (fun _ => ComponentLife.Active)).1.actors =
      [⟨7, ActorLife.Active, []⟩, ⟨7, ActorLife.Active, []⟩] := by
  refine ⟨?_, ?_, ?_⟩
  · with_unfolding_all rfl
  · with_unfolding_all rfl
  · with_unfolding_all rfl

/-- C9: refuted as stated.  `test_sweep_and_prune` sorts the registry in
place by `min.x`, so for two registered boxes stored in descending
`min.x` order the registry after the call is not in its original order. -/
theorem c9_counterexample :
    (PhysWorld.test_sweep_and_prune
        [⟨0, 0, ⟨⟨1, 0, 0⟩, ⟨2, 1, 1⟩⟩⟩, ⟨1, 1, ⟨⟨0, 0, 0⟩, ⟨1, 1, 1⟩⟩⟩]).2 =
      [⟨1, 1, ⟨⟨0, 0, 0⟩, ⟨1, 1, 1⟩⟩⟩, ⟨0, 0, ⟨⟨1, 0, 0⟩, ⟨2, 1, 1⟩⟩⟩] ∧
    (PhysWorld.test_sweep_and_prune
        [⟨0, 0, ⟨⟨1, 0, 0⟩, ⟨2, 1, 1⟩⟩⟩, ⟨1, 1, ⟨⟨0, 0, 0⟩, ⟨1, 1, 1⟩⟩⟩]).2 ≠
      [⟨0, 0, ⟨⟨1, 0, 0⟩, ⟨2, 1, 1⟩⟩⟩, ⟨1, 1, ⟨⟨0, 0, 0⟩, ⟨1, 1, 1⟩⟩⟩] := by
  refine ⟨?_, ?_⟩
  · with_unfolding_all rfl
  · with_unfolding_all decide

/-- C9 (amended): `segment_cast` reads the registry without changing it
(in the embedding it is a pure function of the registry), and
`test_sweep_and_prune` keeps exactly the registered boxes — the registry
it leaves behind is a permutation of the one it received — but reorders
them, leaving the registry sorted by `min.x`. -/
theorem c9_amended (boxes : List BoxComponent) :
    ((PhysWorld.test_sweep_and_prune boxes).2).Perm boxes ∧
    List.Sorted PhysWorld.box_le (PhysWorld.test_sweep_and_prune boxes).2 :=
  ⟨List.perm_insertionSort PhysWorld.box_le boxes,
   List.sorted_insertionSort PhysWorld.box_le boxes⟩

/-- The retain pass never un-marks a component: a component already
`Dead` in the store is still `Dead` in the store the pass returns. -/
lemma flush_retain_dead_mono (l : List MActor) :
    ∀ (comps : CompStore) (c : ℕ), comps c = ComponentLife.Dead →
      (flush_retain l comps).2.2 c = ComponentLife.Dead := by
  induction l with
  | nil => intro comps c h; simpa [flush_retain] using h
  | cons a rest ih =>
    intro comps c h
    by_cases ha : a.state = ActorLife.Dead
    · simp only [flush_retain, ha, ne_eq, not_true_eq_false, if_false]
      apply ih
      simp only [remove_actor]
      split
      · rfl
      · exact h
    · simp only [flush_retain, ne_eq, ha, not_false_eq_true, if_true]
      exact ih comps c h

/-- Specification of the retain pass: kept actors are non-`Dead`, and
every dropped actor has been cascaded (`Dead`, components marked `Dead`
in the final store, component list cleared). -/
lemma flush_retain_spec (l : List MActor) :
    ∀ comps : CompStore,
      (∀ a ∈ (flush_retain l comps).1, a.state ≠ ActorLife.Dead) ∧
      (∀ pr ∈ (flush_retain l comps).2.1,
        pr.2.state = ActorLife.Dead ∧ pr.2.components = [] ∧
        ∀ c ∈ pr.1.components, (flush_retain l comps).2.2 c = ComponentLife.Dead) := by
  induction l with
  | nil => intro comps; simp [flush_retain]
  | cons a rest ih =>
    intro comps
    by_cases ha : a.state = ActorLife.Dead
    · simp only [flush_retain, ha, ne_eq, not_true_eq_false, if_false]
      refine ⟨(ih (remove_actor a comps).2).1, ?_⟩
      intro pr hpr
      rcases List.mem_cons.mp hpr with h1 | h1
      · subst h1
        refine ⟨rfl, rfl, ?_⟩
        intro c hc
        apply flush_retain_dead_mono
        simp only [remove_actor]
        have hc1 : c ∈ ({ a with state := ActorLife.Dead } : MActor).components := hc
        simp [hc1]
      · exact (ih (remove_actor a comps).2).2 pr h1
    · simp only [flush_retain, ne_eq, ha, not_false_eq_true, if_true]
      refine ⟨?_, (ih comps).2⟩
      intro b hb
      rcases List.mem_cons.mp hb with h1 | h1
      · subst h1; simpa using ha
      · exact (ih comps).1 b h1

/-- C10: confirmed.  After `flush_actors` the pending list is empty,
every actor left on the active list is non-`Dead`, and every `Dead` actor
the flush dropped has been cascaded by `remove_actor`: the dropped actor
object's state is `Dead`, its component list is cleared, and each of the
components it used to hold is marked `Dead` in the component store the
flush returns. -/
theorem c10_flush_actors (em : EntityManager) (comps : CompStore) :
    (em.flush_actors comps).1.pending_actors = [] ∧
    (∀ a ∈ (em.flush_actors comps).1.actors, a.state ≠ ActorLife.Dead) ∧
    (∀ pr ∈ (em.flush_actors comps).2.1,
      pr.2.state = ActorLife.Dead ∧ pr.2.components = [] ∧
      ∀ c ∈ pr.1.components, (em.flush_actors comps).2.2 c = ComponentLife.Dead) := by
  refine ⟨rfl, ?_, ?_⟩
  · exact (flush_retain_spec (em.actors ++ em.pending_actors) comps).1
  · exact (flush_retain_spec (em.actors ++ em.pending_actors) comps).2

/-- Witness for `c10_flush_actors`: a manager holding one `Dead` actor
with components 5 and 6 and one `Active` actor; the flush marks
components 5 and 6 `Dead` in the store. -/
theorem c10_flush_actors_witness :
    ((⟨[⟨1, ActorLife.Dead, [5, 6]⟩, ⟨2, ActorLife.Active, []⟩], [], false⟩ :
        EntityManager).flush_actors (fun _ => ComponentLife.Active)).2.2 5 =
      ComponentLife.Dead :=
  (((c10_flush_actors
      ⟨[⟨1, ActorLife.Dead, [5, 6]⟩, ⟨2, ActorLife.Active, []⟩], [], false⟩
      (fun _ => ComponentLife.Active)).2.2
    (⟨1, ActorLife.Dead, [5, 6]⟩, ⟨1, ActorLife.Dead, []⟩)
    (by with_unfolding_all decide)).2.2 5 (by decide))

/-- The `segment_cast` loop depends on the registry only through its hit
list: scanning the registry with the accumulator equals folding the
accumulator over `hits`. -/
lemma segment_cast_aux_eq_fold (line : LineSegment) (boxes : List BoxComponent) :
    ∀ acc, PhysWorld.segment_cast_aux line boxes acc =
      PhysWorld.fold_hits line (PhysWorld.hits line boxes) acc := by
  induction boxes with
  | nil => intro acc; rfl
  | cons b rest ih =>
    intro acc
    simp only [PhysWorld.segment_cast_aux, PhysWorld.hits, List.filterMap_cons]
    cases hb : line.intersect_aabb b.world_box with
    | none => simpa [hb, PhysWorld.hits] using ih acc
    | some tn =>
      obtain ⟨t, n⟩ := tn
      simp only [hb, Option.map_some, PhysWorld.fold_hits]
      cases acc with
      | none => simpa using ih _
      | some p =>
        obtain ⟨ct, i⟩ := p
        by_cases hct : t < ct
        · simpa [hct] using ih _
        · simpa [hct] using ih _

/-- Keep-the-strictly-closest over a hit list, starting from accumulator
`(t0, i0)`: either no hit beats `t0` and the accumulator survives, or the
result is the first hit of the list attaining the minimum — strictly
smaller than `t0`, strictly smaller than every hit before it, and at most
every hit after it. -/
lemma fold_hits_some_spec (line : LineSegment) :
    ∀ (hl : List (BoxComponent × ℚ × Vector3)) (t0 : ℚ) (i0 : CollisionInfo),
      (PhysWorld.fold_hits line hl (some (t0, i0)) = some (t0, i0) ∧
        ∀ x ∈ hl, t0 ≤ x.2.1) ∨
      (∃ l1 b t n l2, hl = l1 ++ (b, t, n) :: l2 ∧
        PhysWorld.fold_hits line hl (some (t0, i0)) =
          some (t, mk_collision_info line b t n) ∧
        t < t0 ∧ (∀ x ∈ l1, t < x.2.1) ∧ (∀ x ∈ l2, t ≤ x.2.1)) := by
  intro hl
  induction hl with
  | nil => intro t0 i0; left; exact ⟨rfl, by simp⟩
  | cons hd rest ih =>
    intro t0 i0
    obtain ⟨b, t, n⟩ := hd
    by_cases hlt : t < t0
    · have hstep : PhysWorld.fold_hits line ((b, t, n) :: rest) (some (t0, i0)) =
          PhysWorld.fold_hits line rest (some (t, mk_collision_info line b t n)) := by
        simp [PhysWorld.fold_hits, hlt]
      rcases ih t (mk_collision_info line b t n) with
        ⟨heq, hall⟩ | ⟨l1, b', t', n', l2, hdec, heq, hlt', hl1, hl2⟩
      · right
        exact ⟨[], b, t, n, rest, by simp, by rw [hstep, heq], hlt, by simp, hall⟩
      · right
        refine ⟨(b, t, n) :: l1, b', t', n', l2, by simp [hdec],
          by rw [hstep, heq], lt_trans hlt' hlt, ?_, hl2⟩
        intro x hx
        rcases List.mem_cons.mp hx with h1 | h1
        · subst h1; exact hlt'
        · exact hl1 x h1
    · have hstep : PhysWorld.fold_hits line ((b, t, n) :: rest) (some (t0, i0)) =
          PhysWorld.fold_hits line rest (some (t0, i0)) := by
        simp [PhysWorld.fold_hits, hlt]
      have hle : t0 ≤ t := le_of_not_lt hlt
      rcases ih t0 i0 with
        ⟨heq, hall⟩ | ⟨l1, b', t', n', l2, hdec, heq, hlt', hl1, hl2⟩
      · left
        refine ⟨by rw [hstep, heq], ?_⟩
        intro x hx
        rcases List.mem_cons.mp hx with h1 | h1
        · subst h1; exact hle
        · exact hall x h1
      · right
        refine ⟨(b, t, n) :: l1, b', t', n', l2, by simp [hdec],
          by rw [hstep, heq], hlt', ?_, hl2⟩
        intro x hx
        rcases List.mem_cons.mp hx with h1 | h1
        · subst h1; exact lt_of_lt_of_le hlt' hle
        · exact hl1 x h1

/-- C1: confirmed.  `segment_cast` returns `none` exactly when no
registered box reports an `intersect_aabb` hit for the segment, and when
it returns a collision, that collision is built (point on the segment,
normal, component, owning actor) from a hit whose parameter `t` is
strictly below every hit scanned before it and at most every hit scanned
after it — i.e. the globally smallest `t`, with exact ties won by the box
encountered first in registry scan order. -/
theorem c1_segment_cast (line : LineSegment) (boxes : List BoxComponent) :
    (PhysWorld.segment_cast line boxes = none ↔ PhysWorld.hits line boxes = []) ∧
    (∀ info, PhysWorld.segment_cast line boxes = some info →
      ∃ l1 b t n l2,
        PhysWorld.hits line boxes = l1 ++ (b, t, n) :: l2 ∧
        info = mk_collision_info line b t n ∧
        (∀ x ∈ l1, t < x.2.1) ∧ (∀ x ∈ l2, t ≤ x.2.1)) := by
  have hfold : PhysWorld.segment_cast line boxes =
      (PhysWorld.fold_hits line (PhysWorld.hits line boxes) none).map Prod.snd := by
    rw [PhysWorld.segment_cast, segment_cast_aux_eq_fold]
  cases hh : PhysWorld.hits line boxes with
  | nil =>
    constructor
    · rw [hfold, hh]; simp [PhysWorld.fold_hits]
    · intro info hinfo
      rw [hfold, hh] at hinfo
      simp [PhysWorld.fold_hits] at hinfo
  | cons hd tl =>
    obtain ⟨b, t, n⟩ := hd
    have hstep : PhysWorld.fold_hits line ((b, t, n) :: tl) none =
        PhysWorld.fold_hits line tl (some (t, mk_collision_info line b t n)) := by
      simp [PhysWorld.fold_hits]
    rcases fold_hits_some_spec line tl t (mk_collision_info line b t n) with
      ⟨heq, hall⟩ | ⟨l1, b', t', n', l2, hdec, heq, hlt', hl1, hl2⟩
    · constructor
      · rw [hfold, hh, hstep, heq]; simp
      · intro info hinfo
        rw [hfold, hh, hstep, heq] at hinfo
        simp at hinfo
        exact ⟨[], b, t, n, tl, by simp [hh], hinfo.symm, by simp, hall⟩
    · constructor
      · rw [hfold, hh, hstep, heq]; simp
      · intro info hinfo
        rw [hfold, hh, hstep, heq] at hinfo
        simp at hinfo
        refine ⟨(b, t, n) :: l1, b', t', n', l2, by simp [hh, hdec],
          hinfo.symm, ?_, hl2⟩
        intro x hx
        rcases List.mem_cons.mp hx with h1 | h1
        · subst h1; exact hlt'
        · exact hl1 x h1

/-- Witness for `c1_segment_cast`: on the empty registry the none-case
applies, and for a single box hit at `t = 1/2` the some-case applies. -/
theorem c1_segment_cast_witness :
    PhysWorld.segment_cast ⟨⟨0, 0, 0⟩, ⟨0, 2, 0⟩⟩ [] = none ∧
    (∃ l1 b t n l2,
      PhysWorld.hits ⟨⟨0, 0, 0⟩, ⟨0, 2, 0⟩⟩ [⟨0, 0, ⟨⟨-1, -1, -1⟩, ⟨1, 1, 1⟩⟩⟩] =
        l1 ++ (b, t, n) :: l2 ∧
      mk_collision_info ⟨⟨0, 0, 0⟩, ⟨0, 2, 0⟩⟩ ⟨0, 0, ⟨⟨-1, -1, -1⟩, ⟨1, 1, 1⟩⟩⟩
          (1/2) ⟨0, 1, 0⟩ = mk_collision_info ⟨⟨0, 0, 0⟩, ⟨0, 2, 0⟩⟩ b t n ∧
      (∀ x ∈ l1, t < x.2.1) ∧ (∀ x ∈ l2, t ≤ x.2.1)) :=
  ⟨(c1_segment_cast ⟨⟨0, 0, 0⟩, ⟨0, 2, 0⟩⟩ []).1.mpr rfl,
   (c1_segment_cast ⟨⟨0, 0, 0⟩, ⟨0, 2, 0⟩⟩ [⟨0, 0, ⟨⟨-1, -1, -1⟩, ⟨1, 1, 1⟩⟩⟩]).2
     (mk_collision_info ⟨⟨0, 0, 0⟩, ⟨0, 2, 0⟩⟩ ⟨0, 0, ⟨⟨-1, -1, -1⟩, ⟨1, 1, 1⟩⟩⟩
       (1/2) ⟨0, 1, 0⟩)
     (by with_unfolding_all rfl)⟩

/-- `AABB::intersect` is symmetric in its two boxes. -/
lemma aabb_intersect_comm (a b : AABB) :
    AABB.intersect a b = AABB.intersect b a := by
  simp only [AABB.intersect]
  generalize decide (a.max.x < b.min.x) = p1
  generalize decide (a.max.y < b.min.y) = p2
  generalize decide (a.max.z < b.min.z) = p3
  generalize decide (b.max.x < a.min.x) = p4
  generalize decide (b.max.y < a.min.y) = p5
  generalize decide (b.max.z < a.min.z) = p6
  revert p1 p2 p3 p4 p5 p6
  decide

/-- A box entirely to the left of another on the x axis does not
intersect it: this is what justifies the sweep-and-prune early break. -/
lemma aabb_intersect_eq_false_of_lt (a b : AABB) (h : a.max.x < b.min.x) :
    AABB.intersect a b = false := by
  simp [AABB.intersect, h]

/-- The unordered pairs the naive pairwise test emits are exactly the
two-element sublists whose world boxes intersect. -/
lemma mem_map_test_pairwise (z : Sym2 ℕ) :
    ∀ l : List BoxComponent,
      z ∈ (PhysWorld.test_pairwise l).map Sym2.mk ↔
      ∃ a b, List.Sublist [a, b] l ∧
        AABB.intersect a.world_box b.world_box = true ∧
        z = Sym2.mk (a.owner_id, b.owner_id) := by
  intro l
  induction l with
  | nil =>
    simp only [PhysWorld.test_pairwise, List.map_nil, List.not_mem_nil, false_iff]
    rintro ⟨a, b, hsub, -, -⟩
    simp at hsub
  | cons a rest ih =>
    rw [PhysWorld.test_pairwise, List.map_append, List.mem_append]
    constructor
    · rintro (h1 | h1)
      · rw [List.map_map, List.mem_map] at h1
        obtain ⟨x, hx, hzx⟩ := h1
        rw [List.mem_filter] at hx
        exact ⟨a, x, (List.singleton_sublist.mpr hx.1).cons₂ a, hx.2, hzx.symm⟩
      · obtain ⟨p, q, hsub, hint, hzq⟩ := ih.mp h1
        exact ⟨p, q, hsub.cons a, hint, hzq⟩
    · rintro ⟨p, q, hsub, hint, hz⟩
      rcases List.sublist_cons_iff.mp hsub with hsub1 | ⟨r, hr, hrsub⟩
      · exact Or.inr (ih.mpr ⟨p, q, hsub1, hint, hz⟩)
      · injection hr with h1 h2
        subst h1
        subst h2
        left
        rw [List.map_map, List.mem_map]
        refine ⟨q, List.mem_filter.mpr ⟨List.singleton_sublist.mp hrsub, hint⟩, ?_⟩
        rw [hz]
        rfl

/-- A permutation preserves two-element sublists up to swapping the
pair. -/
lemma sublist_pair_perm {α : Type} {l1 l2 : List α} (h : l1.Perm l2) :
    ∀ a b : α, List.Sublist [a, b] l1 →
      List.Sublist [a, b] l2 ∨ List.Sublist [b, a] l2 := by
  induction h with
  | nil =>
    intro a b hs
    simp at hs
  | cons x hperm ih =>
    intro a b hs
    rcases List.sublist_cons_iff.mp hs with hs1 | ⟨r, hr, hrsub⟩
    · rcases ih a b hs1 with h1 | h1
      · exact Or.inl (h1.cons x)
      · exact Or.inr (h1.cons x)
    · injection hr with h1 h2
      subst h2
      rw [h1]
      have hb := List.singleton_sublist.mp hrsub
      exact Or.inl ((List.singleton_sublist.mpr (hperm.subset hb)).cons₂ x)
  | swap x y l =>
    intro a b hs
    rcases List.sublist_cons_iff.mp hs with hs1 | ⟨r, hr, hrsub⟩
    · rcases List.sublist_cons_iff.mp hs1 with hs2 | ⟨r, hr, hrsub⟩
      · exact Or.inl ((hs2.cons y).cons x)
      · injection hr with h1 h2
        subst h2
        rw [h1]
        have hb := List.singleton_sublist.mp hrsub
        exact Or.inl
          ((List.singleton_sublist.mpr (List.mem_cons_of_mem y hb)).cons₂ x)
    · injection hr with h1 h2
      subst h2
      rw [h1]
      rcases List.sublist_cons_iff.mp hrsub with hs2 | ⟨r, hr2, hrsub2⟩
      · exact Or.inl ((hs2.cons₂ y).cons x)
      · injection hr2 with h1 h2
        rw [h1]
        exact Or.inr
          ((List.singleton_sublist.mpr (List.mem_cons_self y l)).cons₂ x)
  | trans hp1 hp2 ih1 ih2 =>
    intro a b hs
    rcases ih1 a b hs with hh | hh
    · exact ih2 a b hh
    · rcases ih2 b a hh with hh2 | hh2
      · exact Or.inr hh2
      · exact Or.inl hh2

/-- On a registry sorted by `min.x` the inner sweep loop (with its early
break) emits exactly the pairs the unpruned filter emits. -/
lemma sweep_scan_eq (a : BoxComponent) :
    ∀ rest : List BoxComponent, List.Sorted PhysWorld.box_le rest →
      PhysWorld.sweep_scan a rest =
        (rest.filter (fun b => AABB.intersect a.world_box b.world_box)).map
          (fun b => (a.owner_id, b.owner_id)) := by
  intro rest
  induction rest with
  | nil => intro _; rfl
  | cons b t ih =>
    intro hsort
    rw [List.sorted_cons] at hsort
    obtain ⟨hb, ht⟩ := hsort
    by_cases hgt : b.world_box.min.x > a.world_box.max.x
    · have h1 : PhysWorld.sweep_scan a (b :: t) = [] := by
        simp [PhysWorld.sweep_scan, hgt]
      have h2 : (b :: t).filter (fun c => AABB.intersect a.world_box c.world_box) = [] := by
        rw [List.filter_eq_nil_iff]
        intro c hc
        rcases List.mem_cons.mp hc with h3 | h3
        · subst h3
          simp [aabb_intersect_eq_false_of_lt _ _ hgt]
        · have h4 : b.world_box.min.x ≤ c.world_box.min.x := hb c h3
          have h5 : a.world_box.max.x < c.world_box.min.x := lt_of_lt_of_le hgt h4
          simp [aabb_intersect_eq_false_of_lt _ _ h5]
      rw [h1, h2]
      rfl
    · have h1 : PhysWorld.sweep_scan a (b :: t) =
          (if AABB.intersect a.world_box b.world_box then [(a.owner_id, b.owner_id)]
            else []) ++ PhysWorld.sweep_scan a t := by
        simp [PhysWorld.sweep_scan, hgt]
      rw [h1, ih ht]
      by_cases hint : AABB.intersect a.world_box b.world_box
      · simp [List.filter_cons, hint]
      · simp [List.filter_cons, hint]

/-- On a sorted registry the pruned double loop equals the naive one. -/
lemma sweep_aux_eq :
    ∀ l : List BoxComponent, List.Sorted PhysWorld.box_le l →
      PhysWorld.sweep_aux l = PhysWorld.test_pairwise l := by
  intro l
  induction l with
  | nil => intro _; rfl
  | cons a rest ih =>
    intro hsort
    rw [List.sorted_cons] at hsort
    rw [PhysWorld.sweep_aux, PhysWorld.test_pairwise, sweep_scan_eq a rest hsort.2,
      ih hsort.2]

/-- C5: confirmed.  For any fixed registry, sweep-and-prune (sort by
`min.x`, early break once a candidate's `min.x` exceeds the current box's
`max.x`, full 3-axis AABB overlap test on survivors) invokes the callback
on exactly the same set of unordered owner pairs as the naive pairwise
test over all box pairs. -/
theorem c5_sweep_matches_pairwise (boxes : List BoxComponent) (z : Sym2 ℕ) :
    z ∈ (PhysWorld.test_sweep_and_prune boxes).1.map Sym2.mk ↔
    z ∈ (PhysWorld.test_pairwise boxes).map Sym2.mk := by
  have hs := List.sorted_insertionSort PhysWorld.box_le boxes
  have hp := List.perm_insertionSort PhysWorld.box_le boxes
  have h1 : (PhysWorld.test_sweep_and_prune boxes).1 =
      PhysWorld.test_pairwise (List.insertionSort PhysWorld.box_le boxes) :=
    sweep_aux_eq _ hs
  rw [h1, mem_map_test_pairwise, mem_map_test_pairwise]
  constructor
  · rintro ⟨a, b, hsub, hint, hz⟩
    rcases sublist_pair_perm hp a b hsub with hh | hh
    · exact ⟨a, b, hh, hint, hz⟩
    · refine ⟨b, a, hh, ?_, ?_⟩
      · rw [aabb_intersect_comm]
        exact hint
      · rw [hz]
        exact Sym2.eq_swap
  · rintro ⟨a, b, hsub, hint, hz⟩
    rcases sublist_pair_perm hp.symm a b hsub with hh | hh
    · exact ⟨a, b, hh, hint, hz⟩
    · refine ⟨b, a, hh, ?_, ?_⟩
      · rw [aabb_intersect_comm]
        exact hint
      · rw [hz]
        exact Sym2.eq_swap

end Ch10
